import Mathlib

set_option maxHeartbeats 1000000

namespace NestLocking

/-- A product record, as declared in src/src/products/entities/product.entity.ts.
The SQL `numeric(12,2)` price and `int` stock columns are embedded as integers
(the claims only use sign, ordering and equality of these values); the two
`timestamptz` columns are embedded as abstract clock ticks (`Nat`).  `version`
is the TypeORM `VersionColumn`: initialised to 1 on insert and incremented by 1
on every successful save. -/
structure Product where
  id : Nat
  name : String
  price : Int
  stock : Int
  version : Nat
  createdAt : Nat
  updatedAt : Nat
  deriving DecidableEq, Repr

/-- The error taxonomy of the store: `validation` (BadRequest / ValidationError),
`notFound` (NotFoundException), `conflict` (ConflictException). -/
inductive StoreError where
  | validation
  | notFound
  | conflict
  deriving DecidableEq, Repr

/-- The products table plus the generator state of `PrimaryGeneratedColumn`
(the next id to assign; Postgres serial columns start at 1). -/
structure Store where
  products : List Product
  nextId : Nat
  deriving DecidableEq, Repr

/-- The empty store: no rows, first generated id is 1. -/
def emptyStore : Store := ⟨[], 1⟩

/-- Row lookup by primary key, the embedding of
`repo.findOne({ where: { id } })`: first (and in reachable states only)
record whose id matches, `none` when the id is unknown. -/
def findById : List Product → Nat → Option Product
  | [], _ => none
  | p :: ps, id => if p.id = id then some p else findById ps id

/-- Read the record with the given id from the store. -/
def getProduct (s : Store) (id : Nat) : Option Product :=
  findById s.products id

/-- The write-back of a saved entity: the row whose primary key matches is
replaced by the saved value, every other row is untouched (the embedding of
`repo.save` on an existing row). -/
def replaceById (l : List Product) (id : Nat) (p' : Product) : List Product :=
  l.map (fun q => if q.id = id then p' else q)

/-- Store after saving `p'` over the row with primary key `id`. -/
def saveReplacing (s : Store) (id : Nat) (p' : Product) : Store :=
  { s with products := replaceById s.products id p' }

/-- Body of `PUT /products/:id` (src/src/products/dto/update-product.dto.ts):
`name`, `price`, `stock`, and the client's expected `version`.  The DTO class
carries no validation decorators: any values are accepted. -/
structure UpdateProductDto where
  name : String
  price : Int
  stock : Int
  version : Nat
  deriving DecidableEq, Repr

/-- Body of `POST /products`: `name`, `price`, `stock`. -/
structure CreateProductDto where
  name : String
  price : Int
  stock : Int
  deriving DecidableEq, Repr

/-- The entity produced by `repo.merge(existing, {name, price, stock})`
followed by `repo.save`: the three payload fields overwrite the existing ones,
the `VersionColumn` is incremented by 1 and the `UpdateDateColumn` is
refreshed; `id` and `createdAt` are untouched. -/
def mergedProduct (now : Nat) (existing : Product) (dto : UpdateProductDto) : Product :=
  { existing with
    name := dto.name
    price := dto.price
    stock := dto.stock
    version := existing.version + 1
    updatedAt := now }

/-- ProductsService.findOne (src/unnamed/part_001): look the row up; throw
NotFoundException when absent, return it otherwise.  The method only reads:
its type takes the store and returns no store, so it cannot mutate. -/
def findOne (s : Store) (id : Nat) : Except StoreError Product :=
  match getProduct s id with
  | none => .error .notFound
  | some p => .ok p

/-- ProductsService.update (src/unnamed/part_001), the optimistic-update path:
load the row (NotFoundException when absent); if `dto.version !==
existing.version` throw ConflictException without touching the store;
otherwise merge name/price/stock and save, which bumps `version` by 1 and
refreshes `updatedAt`.  Each branch returns the resulting store explicitly. -/
def update (now : Nat) (s : Store) (id : Nat) (dto : UpdateProductDto) :
    Except StoreError Product × Store :=
  match getProduct s id with
  | none => (.error .notFound, s)
  | some existing =>
    if dto.version ≠ existing.version then
      (.error .conflict, s)
    else
      let saved := mergedProduct now existing dto
      (.ok saved, saveReplacing s id saved)

/-- The record a successful create inserts: fresh id from the generator,
the payload fields, version 1 (TypeORM `VersionColumn` on insert), both
timestamps set to the call time. -/
def createdProduct (now : Nat) (s : Store) (dto : CreateProductDto) : Product :=
  { id := s.nextId
    name := dto.name
    price := dto.price
    stock := dto.stock
    version := 1
    createdAt := now
    updatedAt := now }

/-- Modelled from the spec: the input validation of `create` (`name`
non-empty, `price >= 0`, `stock >= 0`, else ValidationError) — the HTTP/DTO
validation layer for `POST /products` is not under src/.  The insertion
itself follows ProductsService.create (src/unnamed/part_001) with the TypeORM
column defaults declared in product.entity.ts: fresh generated id, version 1,
createdAt and updatedAt set. -/
def create (now : Nat) (s : Store) (dto : CreateProductDto) :
    Except StoreError Product × Store :=
  if dto.name = "" ∨ dto.price < 0 ∨ dto.stock < 0 then
    (.error .validation, s)
  else
    (.ok (createdProduct now s dto),
      { products := s.products ++ [createdProduct now s dto], nextId := s.nextId + 1 })

/-- The record a successful purchase writes back: stock decremented by the
quantity, version bumped by 1, updatedAt refreshed. -/
def purchasedProduct (now : Nat) (p : Product) (quantity : Int) : Product :=
  { p with
    stock := p.stock - quantity
    version := p.version + 1
    updatedAt := now }

/-- Modelled from the spec: the `POST /products/:id/purchase` operation — the
controller/service code for the pessimistic-lock purchase path is not under
src/ (only the demo script and README describe it).  Per spec section 4.1 and
the README: reject a non-positive quantity with ValidationError; NotFoundError
for an unknown id; under the row lock, ConflictError without mutation when
`currentStock < quantity`; otherwise decrement stock, bump version, refresh
updatedAt and save. -/
def purchase (now : Nat) (s : Store) (id : Nat) (quantity : Int) :
    Except StoreError Product × Store :=
  if quantity ≤ 0 then
    (.error .validation, s)
  else
    match getProduct s id with
    | none => (.error .notFound, s)
    | some p =>
      if p.stock < quantity then
        (.error .conflict, s)
      else
        (.ok (purchasedProduct now p quantity),
          saveReplacing s id (purchasedProduct now p quantity))

/-- True when the result of an operation is a success. -/
def isOkResult : Except StoreError Product → Bool
  | .ok _ => true
  | .error _ => false

/-- Modelled from the spec: N concurrent purchase calls against the same id
are serialized by the per-row pessimistic write lock, so every interleaving
is one of the sequential execution orders; `runPurchases` executes one such
order (the quantity list, in any order, ranges over all of them), returning
the success flag of each call and the final store. -/
def runPurchases (now id : Nat) : List Int → Store → List Bool × Store
  | [], s => ([], s)
  | q :: qs, s =>
    let step := purchase now s id q
    let rest := runPurchases now id qs step.2
    (isOkResult step.1 :: rest.1, rest.2)

/-- Sum of the quantities whose call succeeded. -/
def sumSucc : List Int → List Bool → Int
  | q :: qs, b :: bs => (if b then q else 0) + sumSucc qs bs
  | _, _ => 0

/-- Generator well-formedness: every stored id was produced by the generator,
hence is below `nextId`. -/
def WF (s : Store) : Prop := ∀ p ∈ s.products, p.id < s.nextId

/-- States reachable from the empty store by the three operations with
arbitrary arguments (failing calls return the store unchanged, so they are
covered too). -/
inductive Reachable : Store → Prop where
  | empty : Reachable emptyStore
  | create (now : Nat) (s : Store) (dto : CreateProductDto) :
      Reachable s → Reachable (create now s dto).2
  | update (now : Nat) (s : Store) (id : Nat) (dto : UpdateProductDto) :
      Reachable s → Reachable (update now s id dto).2
  | purchase (now : Nat) (s : Store) (id : Nat) (q : Int) :
      Reachable s → Reachable (purchase now s id q).2

/-- States reachable when every optimistic update carries a non-negative
stock value (the restriction forced by the unvalidated update path). -/
inductive ReachableNN : Store → Prop where
  | empty : ReachableNN emptyStore
  | create (now : Nat) (s : Store) (dto : CreateProductDto) :
      ReachableNN s → ReachableNN (create now s dto).2
  | update (now : Nat) (s : Store) (id : Nat) (dto : UpdateProductDto) :
      0 ≤ dto.stock → ReachableNN s → ReachableNN (update now s id dto).2
  | purchase (now : Nat) (s : Store) (id : Nat) (q : Int) :
      ReachableNN s → ReachableNN (purchase now s id q).2

/-- The store after the demo script's create step: one product
`LockDemo`, price 10, stock 5, version 1, id 1. -/
def demoStore : Store := (create 0 emptyStore ⟨"LockDemo", 10, 5⟩).2

/-- The record the demo create inserts. -/
def pLock : Product := createdProduct 0 emptyStore ⟨"LockDemo", 10, 5⟩

/-- The successful optimistic update payload used in the README test guide. -/
def demoDto : UpdateProductDto := ⟨"Demo+", 12, 5, 1⟩

lemma findById_mem {l : List Product} {id : Nat} {p : Product}
    (h : findById l id = some p) : p ∈ l := by
  induction l with
  | nil => simp [findById] at h
  | cons a l ih =>
    by_cases ha : a.id = id
    · simp [findById, ha] at h
      simp [h]
    · simp [findById, ha] at h
      exact List.mem_cons_of_mem _ (ih h)

lemma findById_id {l : List Product} {id : Nat} {p : Product}
    (h : findById l id = some p) : p.id = id := by
  induction l with
  | nil => simp [findById] at h
  | cons a l ih =>
    by_cases ha : a.id = id
    · simp [findById, ha] at h
      simp [← h, ha]
    · simp [findById, ha] at h
      exact ih h

lemma findById_replace {l : List Product} {id : Nat} {p : Product} (p' : Product)
    (hid : p'.id = id) (h : findById l id = some p) :
    findById (replaceById l id p') id = some p' := by
  induction l with
  | nil => simp [findById] at h
  | cons a l ih =>
    by_cases ha : a.id = id
    · simp [replaceById, findById, ha, hid]
    · simp [findById, ha] at h
      simpa [replaceById, findById, ha] using ih h

lemma mem_replaceById {l : List Product} {id : Nat} {p' x : Product}
    (hx : x ∈ replaceById l id p') : x = p' ∨ x ∈ l := by
  rcases List.mem_map.mp hx with ⟨y, hy, hxy⟩
  by_cases h : y.id = id
  · simp [h] at hxy
    exact Or.inl hxy.symm
  · simp [h] at hxy
    exact Or.inr (hxy ▸ hy)

lemma update_notFound (now : Nat) (s : Store) (id : Nat) (dto : UpdateProductDto)
    (h : getProduct s id = none) : update now s id dto = (.error .notFound, s) := by
  simp [update, h]

lemma update_conflict (now : Nat) (s : Store) (id : Nat) (dto : UpdateProductDto)
    {p : Product} (hp : getProduct s id = some p) (hv : dto.version ≠ p.version) :
    update now s id dto = (.error .conflict, s) := by
  simp [update, hp, hv]

lemma update_saved (now : Nat) (s : Store) (id : Nat) (dto : UpdateProductDto)
    {p : Product} (hp : getProduct s id = some p) (hv : dto.version = p.version) :
    update now s id dto =
      (.ok (mergedProduct now p dto), saveReplacing s id (mergedProduct now p dto)) := by
  simp [update, hp, hv]

lemma purchase_nonpos (now : Nat) (s : Store) (id : Nat) {q : Int} (hq : q ≤ 0) :
    purchase now s id q = (.error .validation, s) := by
  simp [purchase, hq]

lemma purchase_insufficient (now : Nat) (s : Store) (id : Nat) {q : Int} {p : Product}
    (hq : 0 < q) (hp : getProduct s id = some p) (hs : p.stock < q) :
    purchase now s id q = (.error .conflict, s) := by
  simp [purchase, hp, hs, not_le.mpr hq]

lemma purchase_saved (now : Nat) (s : Store) (id : Nat) {q : Int} {p : Product}
    (hq : 0 < q) (hp : getProduct s id = some p) (hs : q ≤ p.stock) :
    purchase now s id q =
      (.ok (purchasedProduct now p q), saveReplacing s id (purchasedProduct now p q)) := by
  simp [purchase, hp, not_le.mpr hq, not_lt.mpr hs]

/-- C1: for every existing product and every optimistic update whose
`expectedVersion` differs from the record's current version, `update` reports
ConflictError and the store — hence the record's name, price, stock, version
and updatedAt — is exactly as before the call. -/
theorem optimistic_stale_rejected (now : Nat) (s : Store) (id : Nat)
    (dto : UpdateProductDto) (p : Product)
    (hp : getProduct s id = some p) (hv : dto.version ≠ p.version) :
    (update now s id dto).1 = .error .conflict ∧ (update now s id dto).2 = s := by
  rw [update_conflict now s id dto hp hv]
  exact ⟨rfl, rfl⟩

/-- Witness for C1: on the demo store, an update with stale version 0 against
current version 1 is rejected with ConflictError and the store is unchanged. -/
theorem optimistic_stale_rejected_witness :
    (update 7 demoStore 1 ⟨"X", 1, 1, 0⟩).1 = .error .conflict ∧
      (update 7 demoStore 1 ⟨"X", 1, 1, 0⟩).2 = demoStore :=
  optimistic_stale_rejected 7 demoStore 1 ⟨"X", 1, 1, 0⟩ pLock (by decide) (by decide)

/-- C3: a successful optimistic update (matching `expectedVersion`) returns the
merged record, stores it under the same id, replaces name/price/stock with the
given values, sets version to exactly the old version plus 1, and refreshes
updatedAt to the call time. -/
theorem optimistic_success_contract (now : Nat) (s : Store) (id : Nat)
    (dto : UpdateProductDto) (p : Product)
    (hp : getProduct s id = some p) (hv : dto.version = p.version) :
    (update now s id dto).1 = .ok (mergedProduct now p dto) ∧
    getProduct (update now s id dto).2 id = some (mergedProduct now p dto) ∧
    (mergedProduct now p dto).name = dto.name ∧
    (mergedProduct now p dto).price = dto.price ∧
    (mergedProduct now p dto).stock = dto.stock ∧
    (mergedProduct now p dto).version = p.version + 1 ∧
    (mergedProduct now p dto).updatedAt = now := by
  rw [update_saved now s id dto hp hv]
  have hid0 : p.id = id := findById_id hp
  exact ⟨rfl, findById_replace _ (show (mergedProduct now p dto).id = id from hid0) hp,
    rfl, rfl, rfl, rfl, rfl⟩

/-- Witness for C3: the README's successful optimistic update on the demo
store stores the new payload at version 2. -/
theorem optimistic_success_contract_witness :
    (update 7 demoStore 1 demoDto).1 = .ok (mergedProduct 7 pLock demoDto) ∧
    getProduct (update 7 demoStore 1 demoDto).2 1 = some (mergedProduct 7 pLock demoDto) ∧
    (mergedProduct 7 pLock demoDto).name = demoDto.name ∧
    (mergedProduct 7 pLock demoDto).price = demoDto.price ∧
    (mergedProduct 7 pLock demoDto).stock = demoDto.stock ∧
    (mergedProduct 7 pLock demoDto).version = pLock.version + 1 ∧
    (mergedProduct 7 pLock demoDto).updatedAt = 7 :=
  optimistic_success_contract 7 demoStore 1 demoDto pLock (by decide) (by decide)

/-- C6: for an id with no record, `findOne` reports NotFoundError and `update`
reports NotFoundError leaving the store untouched; `findOne` is side-effect
free by construction (it takes the store and returns only a result, exactly
as the source method only reads the repository). -/
theorem notFound_contract (now : Nat) (s : Store) (id : Nat)
    (dto : UpdateProductDto) (h : getProduct s id = none) :
    findOne s id = .error .notFound ∧
    (update now s id dto).1 = .error .notFound ∧
    (update now s id dto).2 = s := by
  rw [update_notFound now s id dto h]
  exact ⟨by simp [findOne, h], rfl, rfl⟩

/-- Witness for C6: id 99 does not exist in the demo store; both reads and
optimistic updates of it report NotFoundError. -/
theorem notFound_contract_witness :
    findOne demoStore 99 = .error .notFound ∧
    (update 7 demoStore 99 demoDto).1 = .error .notFound ∧
    (update 7 demoStore 99 demoDto).2 = demoStore :=
  notFound_contract 7 demoStore 99 demoDto (by decide)

/-- C9: the optimistic update path validates nothing but the version: with a
matching `expectedVersion` it succeeds even when the payload carries an empty
name, a negative price and a negative stock, and it stores those values. -/
theorem update_accepts_invalid_values (now : Nat) (s : Store) (id : Nat)
    (dto : UpdateProductDto) (p : Product)
    (hp : getProduct s id = some p) (hv : dto.version = p.version)
    (hn : dto.name = "") (hpr : dto.price < 0) (hst : dto.stock < 0) :
    (update now s id dto).1 = .ok (mergedProduct now p dto) ∧
    getProduct (update now s id dto).2 id = some (mergedProduct now p dto) ∧
    (mergedProduct now p dto).name = "" ∧
    (mergedProduct now p dto).price < 0 ∧
    (mergedProduct now p dto).stock < 0 := by
  rw [update_saved now s id dto hp hv]
  have hid0 : p.id = id := findById_id hp
  exact ⟨rfl, findById_replace _ (show (mergedProduct now p dto).id = id from hid0) hp,
    hn, hpr, hst⟩

/-- Witness for C9: on the demo store, an update with empty name, price -5 and
stock -3 at the correct version 1 succeeds and stores those values. -/
theorem update_accepts_invalid_values_witness :
    (update 7 demoStore 1 ⟨"", -5, -3, 1⟩).1 = .ok (mergedProduct 7 pLock ⟨"", -5, -3, 1⟩) ∧
    getProduct (update 7 demoStore 1 ⟨"", -5, -3, 1⟩).2 1 =
      some (mergedProduct 7 pLock ⟨"", -5, -3, 1⟩) ∧
    (mergedProduct 7 pLock ⟨"", -5, -3, 1⟩).name = "" ∧
    (mergedProduct 7 pLock ⟨"", -5, -3, 1⟩).price < 0 ∧
    (mergedProduct 7 pLock ⟨"", -5, -3, 1⟩).stock < 0 :=
  update_accepts_invalid_values 7 demoStore 1 ⟨"", -5, -3, 1⟩ pLock
    (by decide) (by decide) (by decide) (by decide) (by decide)

/-- C5: the purchase contract: a non-positive quantity reports
ValidationError without mutation; on an existing record with insufficient
stock it reports ConflictError without mutation; otherwise it stores the
record with stock decremented by the quantity, version bumped by 1 and
updatedAt refreshed, and returns it. -/
theorem purchase_contract (now : Nat) (s : Store) (id : Nat) (q : Int) :
    (q ≤ 0 → purchase now s id q = (.error .validation, s)) ∧
    (∀ p : Product, getProduct s id = some p → 0 < q → p.stock < q →
      purchase now s id q = (.error .conflict, s)) ∧
    (∀ p : Product, getProduct s id = some p → 0 < q → q ≤ p.stock →
      (purchase now s id q).1 = .ok (purchasedProduct now p q) ∧
      getProduct (purchase now s id q).2 id = some (purchasedProduct now p q) ∧
      (purchasedProduct now p q).stock = p.stock - q ∧
      (purchasedProduct now p q).version = p.version + 1 ∧
      (purchasedProduct now p q).updatedAt = now) := by
  refine ⟨fun hq => purchase_nonpos now s id hq,
    fun p hp hq hs => purchase_insufficient now s id hq hp hs,
    fun p hp hq hs => ?_⟩
  rw [purchase_saved now s id hq hp hs]
  have hid0 : p.id = id := findById_id hp
  exact ⟨rfl, findById_replace _ (show (purchasedProduct now p q).id = id from hid0) hp,
    rfl, rfl, rfl⟩

/-- Witness for C5: on the demo store (stock 5), purchasing 0 is rejected as
invalid, purchasing 6 is a conflict, and purchasing 2 stores stock 3 at
version 2. -/
theorem purchase_contract_witness :
    purchase 3 demoStore 1 0 = (.error .validation, demoStore) ∧
    purchase 3 demoStore 1 6 = (.error .conflict, demoStore) ∧
    (purchase 3 demoStore 1 2).1 = .ok (purchasedProduct 3 pLock 2) ∧
    getProduct (purchase 3 demoStore 1 2).2 1 = some (purchasedProduct 3 pLock 2) ∧
    (purchasedProduct 3 pLock 2).stock = pLock.stock - 2 ∧
    (purchasedProduct 3 pLock 2).version = pLock.version + 1 ∧
    (purchasedProduct 3 pLock 2).updatedAt = 3 :=
  ⟨(purchase_contract 3 demoStore 1 0).1 (by decide),
    (purchase_contract 3 demoStore 1 6).2.1 pLock (by decide) (by decide) (by decide),
    (purchase_contract 3 demoStore 1 2).2.2 pLock (by decide) (by decide) (by decide)⟩

/-- C7: create rejects an empty name, a negative price or a negative stock
with ValidationError and leaves the store untouched; on valid input it inserts
and returns a new record carrying the fresh generated id (distinct from every
existing id in a generator-well-formed store) and the fixed initial
version 1. -/
theorem create_contract (now : Nat) (s : Store) (dto : CreateProductDto) :
    ((dto.name = "" ∨ dto.price < 0 ∨ dto.stock < 0) →
      create now s dto = (.error .validation, s)) ∧
    (dto.name ≠ "" → 0 ≤ dto.price → 0 ≤ dto.stock →
      create now s dto =
        (.ok (createdProduct now s dto),
          ⟨s.products ++ [createdProduct now s dto], s.nextId + 1⟩) ∧
      (createdProduct now s dto).id = s.nextId ∧
      (createdProduct now s dto).version = 1 ∧
      (WF s → ∀ x ∈ s.products, x.id ≠ (createdProduct now s dto).id)) := by
  constructor
  · intro hbad
    simp [create, hbad]
  · intro hn hpr hst
    have hok : ¬(dto.name = "" ∨ dto.price < 0 ∨ dto.stock < 0) := by
      push_neg
      exact ⟨hn, hpr, hst⟩
    refine ⟨by simp [create, hok], rfl, rfl, fun hwf x hx => ?_⟩
    have := hwf x hx
    simp [createdProduct]
    omega

/-- Witness for C7: creating `LockDemo` on the empty store succeeds with id 1
and version 1, and creating a product with a negative price fails with
ValidationError. -/
theorem create_contract_witness :
    create 0 emptyStore ⟨"Bad", -1, 5⟩ = (.error .validation, emptyStore) ∧
    create 0 emptyStore ⟨"LockDemo", 10, 5⟩ =
      (.ok (createdProduct 0 emptyStore ⟨"LockDemo", 10, 5⟩),
        ⟨emptyStore.products ++ [createdProduct 0 emptyStore ⟨"LockDemo", 10, 5⟩],
          emptyStore.nextId + 1⟩) ∧
    (createdProduct 0 emptyStore ⟨"LockDemo", 10, 5⟩).id = emptyStore.nextId ∧
    (createdProduct 0 emptyStore ⟨"LockDemo", 10, 5⟩).version = 1 :=
  ⟨(create_contract 0 emptyStore ⟨"Bad", -1, 5⟩).1 (by decide),
    ((create_contract 0 emptyStore ⟨"LockDemo", 10, 5⟩).2
        (by decide) (by decide) (by decide)).1,
    ((create_contract 0 emptyStore ⟨"LockDemo", 10, 5⟩).2
        (by decide) (by decide) (by decide)).2.1,
    ((create_contract 0 emptyStore ⟨"LockDemo", 10, 5⟩).2
        (by decide) (by decide) (by decide)).2.2.1⟩

/-- C10: every record returned by a successful create has version exactly 1:
the TypeORM VersionColumn initialises to 1 on insert (not 0), as the demo
script assumes with `(fresh.version ?? 1) - 1`. -/
theorem create_initial_version_one (now : Nat) (s : Store) (dto : CreateProductDto)
    (hn : dto.name ≠ "") (hpr : 0 ≤ dto.price) (hst : 0 ≤ dto.stock) :
    (create now s dto).1 = .ok (createdProduct now s dto) ∧
    (createdProduct now s dto).version = 1 := by
  have hok : ¬(dto.name = "" ∨ dto.price < 0 ∨ dto.stock < 0) := by
    push_neg
    exact ⟨hn, hpr, hst⟩
  exact ⟨by simp [create, hok], rfl⟩

/-- Witness for C10: the demo create returns a record with version 1. -/
theorem create_initial_version_one_witness :
    (create 0 emptyStore ⟨"LockDemo", 10, 5⟩).1 =
      .ok (createdProduct 0 emptyStore ⟨"LockDemo", 10, 5⟩) ∧
    (createdProduct 0 emptyStore ⟨"LockDemo", 10, 5⟩).version = 1 :=
  create_initial_version_one 0 emptyStore ⟨"LockDemo", 10, 5⟩
    (by decide) (by decide) (by decide)

/-- C8: neither an optimistic update nor a purchase — successful or failing,
with arbitrary arguments — ever changes the id or createdAt of any stored
record: every record in the resulting store has the id and createdAt of a
record already in the store before the call. -/
theorem id_createdAt_immutable (now : Nat) (s : Store) (id : Nat)
    (dto : UpdateProductDto) (q : Int) :
    (∀ x ∈ (update now s id dto).2.products,
      ∃ p ∈ s.products, x.id = p.id ∧ x.createdAt = p.createdAt) ∧
    (∀ x ∈ (purchase now s id q).2.products,
      ∃ p ∈ s.products, x.id = p.id ∧ x.createdAt = p.createdAt) := by
  constructor
  · intro x hx
    cases hgp : getProduct s id with
    | none =>
      rw [update_notFound now s id dto hgp] at hx
      exact ⟨x, hx, rfl, rfl⟩
    | some existing =>
      by_cases hv : dto.version = existing.version
      · rw [update_saved now s id dto hgp hv] at hx
        rcases mem_replaceById hx with heq | hmem
        · exact ⟨existing, findById_mem hgp, by simp [heq, mergedProduct]⟩
        · exact ⟨x, hmem, rfl, rfl⟩
      · rw [update_conflict now s id dto hgp hv] at hx
        exact ⟨x, hx, rfl, rfl⟩
  · intro x hx
    by_cases hq : q ≤ 0
    · rw [purchase_nonpos now s id hq] at hx
      exact ⟨x, hx, rfl, rfl⟩
    · push_neg at hq
      cases hgp : getProduct s id with
      | none =>
        have : purchase now s id q = (.error .notFound, s) := by
          simp [purchase, hgp, not_le.mpr hq]
        rw [this] at hx
        exact ⟨x, hx, rfl, rfl⟩
      | some existing =>
        by_cases hs : existing.stock < q
        · rw [purchase_insufficient now s id hq hgp hs] at hx
          exact ⟨x, hx, rfl, rfl⟩
        · push_neg at hs
          rw [purchase_saved now s id hq hgp hs] at hx
          rcases mem_replaceById hx with heq | hmem
          · exact ⟨existing, findById_mem hgp, by simp [heq, purchasedProduct]⟩
          · exact ⟨x, hmem, rfl, rfl⟩

/-- Witness for C8: the record stored by a successful purchase of 2 on the
demo store keeps the id and createdAt of the original demo record. -/
theorem id_createdAt_immutable_witness :
    ∃ p ∈ demoStore.products,
      (purchasedProduct 3 pLock 2).id = p.id ∧
      (purchasedProduct 3 pLock 2).createdAt = p.createdAt :=
  (id_createdAt_immutable 3 demoStore 1 demoDto 2).2
    (purchasedProduct 3 pLock 2) (by decide)

/-- The store after an optimistic update that writes stock -1 into the demo
record at the correct version. -/
def negStore : Store := (update 1 demoStore 1 ⟨"LockDemo", 10, -1, 1⟩).2

/-- Counterexample to C2 as stated: a store reachable by the program's own
operations (create, then an optimistic update carrying stock -1 at the correct
version) holds a record with negative stock, because the update path validates
only the version, never the stock value. -/
theorem stock_can_go_negative :
    Reachable negStore ∧ (getProduct negStore 1).map Product.stock = some (-1) :=
  ⟨Reachable.update 1 demoStore 1 ⟨"LockDemo", 10, -1, 1⟩
      (Reachable.create 0 emptyStore ⟨"LockDemo", 10, 5⟩ Reachable.empty),
    by decide⟩

/-- C2 as amended: in every store reachable by create, purchase and optimistic
updates whose payload stock is non-negative, every record's stock is
non-negative — create validates stock, purchase refuses to overdraw, and no
operation can otherwise drive stock below zero. -/
theorem stocks_nonneg (s : Store) (h : ReachableNN s) :
    ∀ p ∈ s.products, 0 ≤ p.stock := by
  induction h with
  | empty =>
    intro p hp
    simp [emptyStore] at hp
  | create now s dto _ ih =>
    intro p hp
    by_cases hbad : dto.name = "" ∨ dto.price < 0 ∨ dto.stock < 0
    · rw [show create now s dto = (.error .validation, s) from by simp [create, hbad]] at hp
      exact ih p hp
    · simp only [create, if_neg hbad] at hp
      rcases List.mem_append.mp hp with h1 | h2
      · exact ih p h1
      · push_neg at hbad
        simp at h2
        rw [h2]
        exact hbad.2.2
  | update now s id dto hstk _ ih =>
    intro p hp
    cases hgp : getProduct s id with
    | none =>
      rw [update_notFound now s id dto hgp] at hp
      exact ih p hp
    | some existing =>
      by_cases hv : dto.version = existing.version
      · rw [update_saved now s id dto hgp hv] at hp
        rcases mem_replaceById hp with heq | hmem
        · rw [heq]
          exact hstk
        · exact ih p hmem
      · rw [update_conflict now s id dto hgp hv] at hp
        exact ih p hp
  | purchase now s id q _ ih =>
    intro p hp
    by_cases hq : q ≤ 0
    · rw [purchase_nonpos now s id hq] at hp
      exact ih p hp
    · push_neg at hq
      cases hgp : getProduct s id with
      | none =>
        rw [show purchase now s id q = (.error .notFound, s) from by
          simp [purchase, hgp, not_le.mpr hq]] at hp
        exact ih p hp
      | some existing =>
        by_cases hs : existing.stock < q
        · rw [purchase_insufficient now s id hq hgp hs] at hp
          exact ih p hp
        · push_neg at hs
          rw [purchase_saved now s id hq hgp hs] at hp
          rcases mem_replaceById hp with heq | hmem
          · rw [heq]
            show 0 ≤ existing.stock - q
            omega
          · exact ih p hmem

/-- Witness for the amended C2: the demo store is reachable under the
restriction and its record's stock is non-negative. -/
theorem stocks_nonneg_witness : 0 ≤ pLock.stock :=
  stocks_nonneg demoStore
    (ReachableNN.create 0 emptyStore ⟨"LockDemo", 10, 5⟩ ReachableNN.empty)
    pLock (by decide)

/-- Unfolding equation for `runPurchases` on a non-empty quantity list. -/
lemma runPurchases_cons (now id : Nat) (q : Int) (qs : List Int) (s : Store) :
    runPurchases now id (q :: qs) s =
      (isOkResult (purchase now s id q).1 ::
          (runPurchases now id qs (purchase now s id q).2).1,
        (runPurchases now id qs (purchase now s id q).2).2) := rfl

lemma runPurchases_spec (now id : Nat) (qs : List Int) :
    ∀ (s : Store) (p : Product), getProduct s id = some p → 0 ≤ p.stock →
      ∃ p', getProduct (runPurchases now id qs s).2 id = some p' ∧
        p'.id = p.id ∧
        p'.stock = p.stock - sumSucc qs (runPurchases now id qs s).1 ∧
        sumSucc qs (runPurchases now id qs s).1 ≤ p.stock ∧
        0 ≤ p'.stock := by
  induction qs with
  | nil =>
    intro s p hp h0
    refine ⟨p, ?_, rfl, ?_, ?_, h0⟩
    · simpa [runPurchases] using hp
    · simp [runPurchases, sumSucc]
    · simpa [runPurchases, sumSucc] using h0
  | cons q qs ih =>
    intro s p hp h0
    rcases le_or_lt q 0 with hq | hq
    · have hstep : purchase now s id q = (.error .validation, s) :=
        purchase_nonpos now s id hq
      simp only [runPurchases_cons, hstep, isOkResult, sumSucc, if_false,
        Bool.false_eq_true, zero_add]
      exact ih s p hp h0
    · by_cases hs : p.stock < q
      · have hstep : purchase now s id q = (.error .conflict, s) :=
          purchase_insufficient now s id hq hp hs
        simp only [runPurchases_cons, hstep, isOkResult, sumSucc, if_false,
          Bool.false_eq_true, zero_add]
        exact ih s p hp h0
      · push_neg at hs
        have hstep : purchase now s id q =
            (.ok (purchasedProduct now p q),
              saveReplacing s id (purchasedProduct now p q)) :=
          purchase_saved now s id hq hp hs
        have hid0 : p.id = id := findById_id hp
        have hp' : getProduct (saveReplacing s id (purchasedProduct now p q)) id =
            some (purchasedProduct now p q) :=
          findById_replace _ (show (purchasedProduct now p q).id = id from hid0) hp
        have hsst : (purchasedProduct now p q).stock = p.stock - q := rfl
        have h0' : 0 ≤ (purchasedProduct now p q).stock := by omega
        obtain ⟨p', h1, h2, h3, h4, h5⟩ :=
          ih (saveReplacing s id (purchasedProduct now p q)) (purchasedProduct now p q) hp' h0'
        simp only [runPurchases_cons, hstep, isOkResult, sumSucc, if_true]
        refine ⟨p', h1, h2, ?_, ?_, h5⟩
        · omega
        · omega

/-- C4: any serialization order of N purchase calls with quantities q1..qN
against a record with non-negative initial stock S satisfies: the quantities
of the succeeding calls sum to at most S, the final stored stock equals S
minus that sum (no committed decrement is lost), the record keeps its id, and
the final stock is non-negative. -/
theorem purchases_serialized (now id : Nat) (qs : List Int) (s : Store) (p : Product)
    (hp : getProduct s id = some p) (h0 : 0 ≤ p.stock) :
    sumSucc qs (runPurchases now id qs s).1 ≤ p.stock ∧
    (getProduct (runPurchases now id qs s).2 id).map Product.stock =
      some (p.stock - sumSucc qs (runPurchases now id qs s).1) ∧
    (getProduct (runPurchases now id qs s).2 id).map Product.id = some p.id ∧
    0 ≤ p.stock - sumSucc qs (runPurchases now id qs s).1 := by
  obtain ⟨p', h1, h2, h3, h4, h5⟩ := runPurchases_spec now id qs s p hp h0
  refine ⟨h4, ?_, ?_, by omega⟩
  · rw [h1]
    simpa using h3
  · rw [h1]
    simpa using h2

/-- Witness for C4: the demo's two concurrent purchases (2 and 4) against
stock 5, run in the order the lock grants them: the succeeding quantities sum
to at most 5 and the final stock is 5 minus that sum. -/
theorem purchases_serialized_witness :
    sumSucc [2, 4] (runPurchases 3 1 [2, 4] demoStore).1 ≤ pLock.stock ∧
    (getProduct (runPurchases 3 1 [2, 4] demoStore).2 1).map Product.stock =
      some (pLock.stock - sumSucc [2, 4] (runPurchases 3 1 [2, 4] demoStore).1) ∧
    (getProduct (runPurchases 3 1 [2, 4] demoStore).2 1).map Product.id = some pLock.id ∧
    0 ≤ pLock.stock - sumSucc [2, 4] (runPurchases 3 1 [2, 4] demoStore).1 :=
  purchases_serialized 3 1 [2, 4] demoStore pLock (by decide) (by decide)

end NestLocking
